import Mathlib

/-!
Verification development for the TokenOptimizer repository.

This file gives a shallow embedding, in Lean, of the parts of the Rust
source that the verified claims are about:

* `src/api/sse.rs` — the three-dialect SSE line parsers;
* `src/api/client.rs` / `src/api/venice.rs` — the streaming consumer loop
  and the Anthropic-style request serialization;
* `src/api/venice.rs` — the credit tracker state machine;
* `src/cache/strategy.rs` — context classification, reordering and
  breakpoint placement;
* `src/cache/tracker.rs` — the cache table with LRU eviction;
* `src/orchestrator/session.rs` — turn recording;
* `src/orchestrator/mod.rs` — `reset_to_venice`.

Modelling conventions:
* JSON values produced by `serde_json::from_str` are modelled by the
  inductive `Json` below; the parsing step itself is abstracted as a
  function `fromStr : String → Except String Json` supplied to each
  parser, standing for `serde_json::from_str` (the SSE code only
  inspects the parse result, never the parser internals).
* Rust `u32`/`u64` values are `Nat`; where the source performs an
  `as u32` cast or a `u32` addition, the result is reduced `% 2^32`.
* `f64` balances are modelled as `ℚ` (only order comparisons are used).
* `std::time::Instant` is an abstract tick counter `Nat`.
-/

/-! ### String primitives

The Rust code uses `str::trim`, `strip_prefix`, `starts_with`, `ends_with`,
`contains`, `find('\n')`-based splitting, and `len`-based truncation. These
are re-implemented here over the character list of a `String`, so that every
definition evaluates inside the kernel (`decide` / `rfl`). Rust byte indices
and Lean character indices coincide on the ASCII data used throughout. -/

/-- `s.starts_with(p)` on character lists. -/
def listStartsWith : List Char → List Char → Bool
  | _, [] => true
  | [], _ :: _ => false
  | c :: s, p :: ps => c == p && listStartsWith s ps

/-- `s.starts_with(p)`. -/
def strStarts (s p : String) : Bool := listStartsWith s.data p.data

/-- `s.ends_with(p)`. -/
def strEnds (s p : String) : Bool := listStartsWith s.data.reverse p.data.reverse

/-- `s.is_empty()`. -/
def strIsEmpty (s : String) : Bool := s.data.isEmpty

/-- The first `n` characters of `s` (Rust `&s[..n]` on ASCII data). -/
def strTake (s : String) (n : Nat) : String := String.mk (s.data.take n)

/-- `s` without its first `n` characters (Rust `&s[n..]` on ASCII data). -/
def strDrop (s : String) (n : Nat) : String := String.mk (s.data.drop n)

/-- `s.len()` (character count; equals the Rust byte count on ASCII data). -/
def strLen (s : String) : Nat := s.data.length

/-- `str::trim`: drop whitespace from both ends. -/
def strTrim (s : String) : String :=
  String.mk (((s.data.dropWhile Char.isWhitespace).reverse.dropWhile
    Char.isWhitespace).reverse)

/-- Helper for `strContains`: does `pat` occur starting at some position? -/
def listContainsSub : List Char → List Char → Bool
  | l, pat =>
    listStartsWith l pat ||
      match l with
      | [] => false
      | _ :: rest => listContainsSub rest pat

/-- `s.contains(pat)` (substring occurrence). -/
def strContains (s pat : String) : Bool := listContainsSub s.data pat.data

/-- The `while let Some(newline_pos) = buffer.find('\n')` splitting of the
streaming loops: all complete lines, with the residual (after the last
newline) as the final element. -/
def splitLinesAux : List Char → List Char → List String
  | [], acc => [String.mk acc.reverse]
  | c :: rest, acc =>
    if c == '\n' then String.mk acc.reverse :: splitLinesAux rest []
    else splitLinesAux rest (c :: acc)

/-- Split a buffer at newlines; the last element is the incomplete residual. -/
def splitLines (s : String) : List String := splitLinesAux s.data []

/-- Model of `serde_json::Value`. Numbers are modelled as integers,
which is enough for the fields the source reads through `as_u64`. -/
inductive Json where
  | null
  | bool (b : Bool)
  | num (n : Int)
  | str (s : String)
  | arr (elems : List Json)
  | obj (fields : List (String × Json))

/-- `value[key]` on a `serde_json::Value`: field of an object, else `Null`. -/
def Json.getKey : Json → String → Json
  | .obj fields, k =>
    match fields.find? (fun p => p.1 == k) with
    | some p => p.2
    | none => .null
  | _, _ => .null

/-- `value[i]` on a `serde_json::Value`: array element, else `Null`. -/
def Json.getIdx : Json → Nat → Json
  | .arr elems, i => (elems.get? i).getD .null
  | _, _ => .null

/-- `Value::as_str`. -/
def Json.asStr : Json → Option String
  | .str s => some s
  | _ => none

/-- `Value::as_u64`: only non-negative integers convert. -/
def Json.asU64 : Json → Option Nat
  | .num n => if n < 0 then none else some n.toNat
  | _ => none

/-- `Value::as_bool`. -/
def Json.asBool : Json → Option Bool
  | .bool b => some b
  | _ => none

/-- `Value::get(key)`: `some` only when the value is an object with the key. -/
def Json.getOpt : Json → String → Option Json
  | .obj fields, k => (fields.find? (fun p => p.1 == k)).map (·.2)
  | _, _ => none

/-- `n as u32`. -/
def toU32 (n : Nat) : Nat := n % 4294967296

/-- `TokenUsage` from `src/api/response.rs`. -/
structure TokenUsage where
  prompt_tokens : Nat
  completion_tokens : Nat
  total_tokens : Nat
  estimated_cost_usd : Option ℚ
  cache_creation_tokens : Option Nat
  cache_read_tokens : Option Nat
deriving DecidableEq, Repr

/-- `TokenUsage::default()` (all counters zero, options `None`). -/
def TokenUsage.default : TokenUsage :=
  { prompt_tokens := 0, completion_tokens := 0, total_tokens := 0,
    estimated_cost_usd := none, cache_creation_tokens := none,
    cache_read_tokens := none }

/-- `TokenUsage::new` from `src/api/response.rs` (`total = prompt + completion`,
a `u32` addition). -/
def TokenUsage.new (prompt_tokens completion_tokens : Nat) : TokenUsage :=
  { prompt_tokens, completion_tokens,
    total_tokens := toU32 (prompt_tokens + completion_tokens),
    estimated_cost_usd := none, cache_creation_tokens := none,
    cache_read_tokens := none }

/-- `StreamChunk` from `src/api/streaming.rs`. -/
inductive StreamChunk where
  | TextDelta (s : String)
  | Done (usage : TokenUsage)
  | Error (msg : String)
deriving DecidableEq, Repr

/-- `matches!(chunk, StreamChunk::Done(_))`. -/
def StreamChunk.is_done : StreamChunk → Bool
  | .Done _ => true
  | _ => false

/-- `matches!(chunk, StreamChunk::Error(_))`. -/
def StreamChunk.is_error : StreamChunk → Bool
  | .Error _ => true
  | _ => false

/-- `SseFormat` from `src/api/sse.rs`. -/
inductive SseFormat where
  | OpenAI
  | Anthropic
  | Ollama
deriving DecidableEq, Repr

/-- `line.strip_prefix("data: ")`. -/
def dataPayload (line : String) : Option String :=
  if strStarts line "data: " then some (strDrop line 6) else none

/-- The usage extraction in the `finish_reason` branch of `parse_openai_sse`. -/
def openaiUsage (json : Json) : TokenUsage :=
  match json.getOpt "usage" with
  | some u =>
      TokenUsage.new (toU32 (((u.getKey "prompt_tokens").asU64).getD 0))
        (toU32 (((u.getKey "completion_tokens").asU64).getD 0))
  | none => TokenUsage.default

/-- The `finish_reason` check at the end of `parse_openai_sse`
(`src/api/sse.rs` lines 63-77). -/
def openaiFinish (json : Json) : Option StreamChunk :=
  match (((json.getKey "choices").getIdx 0).getKey "finish_reason").asStr with
  | some reason =>
      if reason == "stop" || reason == "length" then
        some (.Done (openaiUsage json))
      else none
  | none => none

/-- `parse_openai_sse` from `src/api/sse.rs` (lines 40-78).
`fromStr` stands for `serde_json::from_str`. -/
def parse_openai_sse (fromStr : String → Except String Json)
    (line : String) : Option StreamChunk :=
  match dataPayload line with
  | none => none
  | some data =>
    if strTrim data == "[DONE]" then some (.Done TokenUsage.default)
    else
      match fromStr data with
      | .error e => some (.Error ("JSON parse error: " ++ e))
      | .ok json =>
        match ((((json.getKey "choices").getIdx 0).getKey "delta").getKey
            "content").asStr with
        | some content =>
            if strIsEmpty content then openaiFinish json
            else some (.TextDelta content)
        | none => openaiFinish json

/-- The usage extraction in the `message_delta` branch of `parse_anthropic_sse`. -/
def anthropicUsage (json : Json) : TokenUsage :=
  match json.getOpt "usage" with
  | some u =>
      TokenUsage.new (toU32 (((u.getKey "input_tokens").asU64).getD 0))
        (toU32 (((u.getKey "output_tokens").asU64).getD 0))
  | none => TokenUsage.default

/-- `parse_anthropic_sse` from `src/api/sse.rs` (lines 80-129). -/
def parse_anthropic_sse (fromStr : String → Except String Json)
    (line : String) : Option StreamChunk :=
  if strStarts line "event:" then none
  else
    match dataPayload line with
    | none => none
    | some data =>
      match fromStr data with
      | .error e => some (.Error ("JSON parse error: " ++ e))
      | .ok json =>
        let event_type := ((json.getKey "type").asStr).getD ""
        if event_type == "content_block_delta" then
          match ((json.getKey "delta").getKey "text").asStr with
          | some text =>
              if strIsEmpty text then none else some (.TextDelta text)
          | none => none
        else if event_type == "message_delta" then
          some (.Done (anthropicUsage json))
        else if event_type == "message_stop" then
          some (.Done TokenUsage.default)
        else if event_type == "error" then
          some (.Error ((((json.getKey "error").getKey "message").asStr).getD
            "Unknown error"))
        else none

/-- The `done: true` check at the end of `parse_ollama_line`. -/
def ollamaDone (json : Json) : Option StreamChunk :=
  if (json.getKey "done").asBool == some true then
    some (.Done (TokenUsage.new
      (toU32 (((json.getKey "prompt_eval_count").asU64).getD 0))
      (toU32 (((json.getKey "eval_count").asU64).getD 0))))
  else none

/-- The `response` / `done` checks of `parse_ollama_line`. -/
def ollamaRest (json : Json) : Option StreamChunk :=
  match (json.getKey "response").asStr with
  | some r => if strIsEmpty r then ollamaDone json else some (.TextDelta r)
  | none => ollamaDone json

/-- `parse_ollama_line` from `src/api/sse.rs` (lines 131-161). A JSON parse
failure yields `None` (the line is skipped), not an `Error` chunk. -/
def parse_ollama_line (fromStr : String → Except String Json)
    (line : String) : Option StreamChunk :=
  match fromStr line with
  | .error _ => none
  | .ok json =>
    match ((json.getKey "message").getKey "content").asStr with
    | some content =>
        if strIsEmpty content then ollamaRest json
        else some (.TextDelta content)
    | none => ollamaRest json

/-- `parse_sse_line` from `src/api/sse.rs` (lines 25-38). -/
def parse_sse_line (fromStr : String → Except String Json)
    (line : String) (format : SseFormat) : Option StreamChunk :=
  let line := strTrim line
  if strIsEmpty line || strStarts line ":" then none
  else
    match format with
    | .OpenAI => parse_openai_sse fromStr line
    | .Anthropic => parse_anthropic_sse fromStr line
    | .Ollama => parse_ollama_line fromStr line

/-- The inner `while let Some(newline_pos)` loop body of `send_streaming`
(`src/api/client.rs` lines 408-422 and `src/api/venice.rs` lines 368-381):
parse each complete line, send the resulting chunks on the channel, and stop
after the first `Done` or `Error` chunk. Returns the chunks delivered and
whether a terminal chunk was delivered. -/
def emitLines (parse : String → Option StreamChunk) :
    List String → List StreamChunk × Bool
  | [] => ([], false)
  | l :: rest =>
    match parse l with
    | none => emitLines parse rest
    | some c =>
      if c.is_done || c.is_error then ([c], true)
      else
        let r := emitLines parse rest
        (c :: r.1, r.2)

/-- The spawned streaming task of `send_streaming` (`src/api/client.rs`
lines 398-435, identical loop in `src/api/venice.rs` lines 359-394): the
byte stream is a list of chunk results; each `Ok` chunk is appended to the
buffer and complete lines (up to each newline) are parsed; an `Err` chunk
delivers a single `Error` and stops; end of stream synthesizes
`Done(TokenUsage::default())`. Returns the chunks delivered to the consumer. -/
def drainStream (parse : String → Option StreamChunk) :
    List (Except String String) → String → List StreamChunk
  | [], _ => [StreamChunk.Done TokenUsage.default]
  | .error e :: _, _ => [StreamChunk.Error ("Stream error: " ++ e)]
  | .ok bytes :: rest, buffer =>
    let buf := buffer ++ bytes
    let parts := splitLines buf
    let r := emitLines parse parts.dropLast
    if r.2 then r.1 else r.1 ++ drainStream parse rest (parts.getLastD "")

/-- The sequence of chunks delivered to the consumer by `send_streaming`
for a given dialect, JSON parser, and byte stream (after the HTTP status
check succeeded). -/
def send_streaming_chunks (format : SseFormat)
    (fromStr : String → Except String Json)
    (chunks : List (Except String String)) : List StreamChunk :=
  drainStream (fun line => parse_sse_line fromStr line format) chunks ""

-- Sanity checks against the literal end-to-end scenarios of the spec.

/-- A concrete JSON oracle for the spec scenario payloads. -/
def scenarioOracle : String → Except String Json := fun s =>
  if s = "\x7b\"choices\":[\x7b\"delta\":\x7b\"content\":\"Hello\"\x7d,\"index\":0\x7d]\x7d" then
    .ok (.obj [("choices", .arr [.obj [("delta", .obj [("content", .str "Hello")]),
      ("index", .num 0)]])])
  else if s = "\x7b\"done\":true,\"prompt_eval_count\":10,\"eval_count\":20\x7d" then
    .ok (.obj [("done", .bool true), ("prompt_eval_count", .num 10),
      ("eval_count", .num 20)])
  else .error "expected value"

example :
    send_streaming_chunks .OpenAI scenarioOracle
      [.ok "data: \x7b\"choices\":[\x7b\"delta\":\x7b\"content\":\"Hello\"\x7d,\"index\":0\x7d]\x7d\ndata: [DONE]\n"]
      = [.TextDelta "Hello", .Done TokenUsage.default] := by decide

example :
    parse_sse_line scenarioOracle
      "\x7b\"done\":true,\"prompt_eval_count\":10,\"eval_count\":20\x7d" .Ollama
      = some (.Done (TokenUsage.new 10 20)) := by decide

example : send_streaming_chunks .OpenAI scenarioOracle []
    = [.Done TokenUsage.default] := by decide

/-! ### Stream shape lemmas (claims C1, C3) -/

/-- Chunks delivered by the line loop: a run of `TextDelta`s, closed by a
terminal chunk exactly when the returned flag is `true`. -/
theorem emitLines_shape (parse : String → Option StreamChunk)
    (ls : List String) :
    (∃ texts : List String,
        emitLines parse ls = (texts.map StreamChunk.TextDelta, false)) ∨
    (∃ texts : List String, ∃ term,
        emitLines parse ls = (texts.map StreamChunk.TextDelta ++ [term], true)
        ∧ (term.is_done || term.is_error) = true) := by
  induction ls with
  | nil => exact Or.inl ⟨[], rfl⟩
  | cons l rest ih =>
    cases hp : parse l with
    | none => simpa [emitLines, hp] using ih
    | some c =>
      by_cases hterm : (c.is_done || c.is_error) = true
      · exact Or.inr ⟨[], c, by simp [emitLines, hp, hterm], hterm⟩
      · obtain ⟨s, rfl⟩ : ∃ s, c = StreamChunk.TextDelta s := by
          cases c with
          | TextDelta s => exact ⟨s, rfl⟩
          | Done u => simp [StreamChunk.is_done] at hterm
          | Error e => simp [StreamChunk.is_error] at hterm
        rcases ih with ⟨texts, hts⟩ | ⟨texts, term, hts, hterm2⟩
        · exact Or.inl ⟨s :: texts,
            by simp [emitLines, hp, hts, StreamChunk.is_done, StreamChunk.is_error]⟩
        · exact Or.inr ⟨s :: texts, term,
            by simp [emitLines, hp, hts, StreamChunk.is_done, StreamChunk.is_error],
            hterm2⟩

/-- Chunks delivered by the whole streaming task: a run of `TextDelta`s
followed by exactly one terminal (`Done` or `Error`) chunk. -/
theorem drainStream_shape (parse : String → Option StreamChunk)
    (chunks : List (Except String String)) :
    ∀ buffer, ∃ texts : List String, ∃ term,
      drainStream parse chunks buffer = texts.map StreamChunk.TextDelta ++ [term]
      ∧ (term.is_done || term.is_error) = true := by
  induction chunks with
  | nil =>
    intro buffer
    exact ⟨[], .Done TokenUsage.default, rfl, rfl⟩
  | cons hd rest ih =>
    intro buffer
    cases hd with
    | error e => exact ⟨[], .Error ("Stream error: " ++ e), rfl, rfl⟩
    | ok bytes =>
      rcases emitLines_shape parse ((splitLines (buffer ++ bytes)).dropLast)
          with ⟨texts, hts⟩ | ⟨texts, term, hts, htm⟩
      · obtain ⟨texts2, term, hrec, htm⟩ :=
          ih ((splitLines (buffer ++ bytes)).getLastD "")
        refine ⟨texts ++ texts2, term, ?_, htm⟩
        simp only [drainStream, hts]
        rw [hrec]
        simp [List.map_append]
      · exact ⟨texts, term, by simp [drainStream, hts], htm⟩

/-- A line starting with `"data: "` is nonempty, is not an SSE comment, and
does not start with `"event:"`. -/
theorem strStarts_data_head {t : String} (h : strStarts t "data: " = true) :
    strIsEmpty t = false ∧ strStarts t ":" = false ∧
      strStarts t "event:" = false := by
  rcases ht : t.data with _ | ⟨c, cs⟩
  · rw [strStarts, ht] at h
    exact absurd h (by decide)
  · rw [strStarts, ht] at h
    have hand : (c == 'd' && listStartsWith cs ['a', 't', 'a', ':', ' ']) = true := by
      simpa [show ("data: ").data = ['d', 'a', 't', 'a', ':', ' '] from rfl,
        listStartsWith] using h
    have hc : c = 'd' := by
      have := (Bool.and_eq_true _ _).mp hand |>.1
      simpa using this
    subst hc
    refine ⟨by simp [strIsEmpty, ht], ?_, ?_⟩
    · rw [strStarts, ht]
      simp [show (":").data = [':'] from rfl, listStartsWith,
        show (('d' : Char) == ':') = false from rfl]
    · rw [strStarts, ht]
      simp [show ("event:").data = ['e', 'v', 'e', 'n', 't', ':'] from rfl,
        listStartsWith, show (('d' : Char) == 'e') = false from rfl]

/-- Claim C1: every stream produced by `send_streaming` delivers zero or
more `TextDelta` chunks followed by exactly one terminal chunk (`Done` or
`Error`), with nothing after the terminal; and the empty byte stream yields
exactly one `Done` chunk with default (empty) token usage. -/
theorem send_streaming_chunk_sequence :
    (∀ format fromStr chunks, ∃ texts : List String, ∃ term,
        send_streaming_chunks format fromStr chunks
          = texts.map StreamChunk.TextDelta ++ [term]
        ∧ (term.is_done || term.is_error) = true) ∧
    (∀ format fromStr,
        send_streaming_chunks format fromStr []
          = [StreamChunk.Done TokenUsage.default]) := by
  constructor
  · intro format fromStr chunks
    exact drainStream_shape _ chunks ""
  · intro format fromStr
    rfl

/-! ### Claim C3: malformed JSON payloads -/

/-- A concrete JSON oracle: one well-formed OpenAI delta document carrying
the text `"Hi"`; every other string is a parse error (as
`serde_json::from_str` reports for non-JSON input). -/
def malformedOracle : String → Except String Json := fun s =>
  if s = "\x7b\"choices\":[\x7b\"delta\":\x7b\"content\":\"Hi\"\x7d\x7d]\x7d" then
    .ok (.obj [("choices",
      .arr [.obj [("delta", .obj [("content", .str "Hi")])]])])
  else .error "expected value at line 1 column 1"

/-- The well-formed OpenAI delta line used below. -/
def wellFormedDeltaLine : String :=
  "data: \x7b\"choices\":[\x7b\"delta\":\x7b\"content\":\"Hi\"\x7d\x7d]\x7d"

/-- Counterexample to claim C3 as stated. Two refutations at concrete
inputs: (1) in the OpenAI dialect, after a malformed `data:` line the
stream delivers the `Error` chunk and then stops, so the well-formed frame
`"Hi"` arriving later on the same byte stream is never delivered (the last
conjunct shows the same frame alone is parsed fine); (2) in the Ollama
dialect a malformed line yields no chunk at all, not an `Error` chunk. -/
theorem malformed_json_claim_counterexample :
    send_streaming_chunks .OpenAI malformedOracle
        [.ok ("data: notjson\n" ++ wellFormedDeltaLine ++ "\n")]
      = [.Error "JSON parse error: expected value at line 1 column 1"] ∧
    StreamChunk.TextDelta "Hi" ∉
      send_streaming_chunks .OpenAI malformedOracle
        [.ok ("data: notjson\n" ++ wellFormedDeltaLine ++ "\n")] ∧
    parse_sse_line malformedOracle "notjson" .Ollama = none ∧
    parse_sse_line malformedOracle wellFormedDeltaLine .OpenAI
      = some (.TextDelta "Hi") := by
  refine ⟨by decide, by decide, by decide, by decide⟩

/-- Claim C3 (amended): a line whose JSON payload is malformed yields an
`Error` chunk in the OpenAI and Anthropic dialects, but is silently skipped
(no chunk) in the Ollama dialect; and an `Error` chunk is terminal — the
streaming loop stops after delivering it, so no chunk (in particular no
later well-formed frame) is ever delivered after an `Error`. -/
theorem malformed_json_dialect_behavior :
    (∀ (fromStr : String → Except String Json) (line data e : String),
        dataPayload (strTrim line) = some data →
        (strTrim data == "[DONE]") = false →
        fromStr data = .error e →
        parse_sse_line fromStr line .OpenAI
          = some (.Error ("JSON parse error: " ++ e))) ∧
    (∀ (fromStr : String → Except String Json) (line data e : String),
        dataPayload (strTrim line) = some data →
        fromStr data = .error e →
        parse_sse_line fromStr line .Anthropic
          = some (.Error ("JSON parse error: " ++ e))) ∧
    (∀ (fromStr : String → Except String Json) (line e : String),
        strIsEmpty (strTrim line) = false →
        strStarts (strTrim line) ":" = false →
        fromStr (strTrim line) = .error e →
        parse_sse_line fromStr line .Ollama = none) ∧
    (∀ format fromStr chunks (pre : List StreamChunk) e post,
        send_streaming_chunks format fromStr chunks
          = pre ++ StreamChunk.Error e :: post → post = []) := by
  refine ⟨?_, ?_, ?_, ?_⟩
  · intro fromStr line data e hdata hdone hfrom
    have hs : strStarts (strTrim line) "data: " = true := by
      by_contra hns
      rw [Bool.not_eq_true] at hns
      simp [dataPayload, hns] at hdata
    obtain ⟨hne, hcol, _⟩ := strStarts_data_head hs
    simp [parse_sse_line, hne, hcol, parse_openai_sse, hdata, hdone, hfrom]
  · intro fromStr line data e hdata hfrom
    have hs : strStarts (strTrim line) "data: " = true := by
      by_contra hns
      rw [Bool.not_eq_true] at hns
      simp [dataPayload, hns] at hdata
    obtain ⟨hne, hcol, hev⟩ := strStarts_data_head hs
    simp [parse_sse_line, hne, hcol, parse_anthropic_sse, hev, hdata, hfrom]
  · intro fromStr line e hne hcol hfrom
    simp [parse_sse_line, hne, hcol, parse_ollama_line, hfrom]
  · intro format fromStr chunks pre e post h
    obtain ⟨texts, term, hshape, hterm⟩ :=
      drainStream_shape (fun line => parse_sse_line fromStr line format)
        chunks ""
    have hsc : send_streaming_chunks format fromStr chunks
        = List.map StreamChunk.TextDelta texts ++ [term] := hshape
    have heq : pre ++ StreamChunk.Error e :: post
        = List.map StreamChunk.TextDelta texts ++ [term] := h.symm.trans hsc
    have hlen := congrArg List.length heq
    simp at hlen
    have hL : (pre ++ StreamChunk.Error e :: post).get? pre.length
        = some (StreamChunk.Error e) := by
      rw [List.get?_append_right (le_refl _)]
      simp
    rcases Nat.lt_or_ge pre.length texts.length with hlt | hge
    · have hR : (List.map StreamChunk.TextDelta texts ++ [term]).get? pre.length
          = (List.map StreamChunk.TextDelta texts).get? pre.length :=
        List.get?_append (by simpa using hlt)
      rw [heq, hR, List.get?_map] at hL
      cases hx : texts.get? pre.length with
      | none => rw [hx] at hL; simp at hL
      | some s => rw [hx] at hL; simp at hL
    · have hpost : post.length = 0 := by omega
      exact List.eq_nil_of_length_eq_zero hpost

/-- Witness for `malformed_json_dialect_behavior` at concrete inputs. -/
theorem malformed_json_dialect_behavior_witness :
    parse_sse_line malformedOracle "data: notjson" .OpenAI
      = some (.Error "JSON parse error: expected value at line 1 column 1") ∧
    parse_sse_line malformedOracle "data: notjson" .Anthropic
      = some (.Error "JSON parse error: expected value at line 1 column 1") ∧
    parse_sse_line malformedOracle "notjson" .Ollama = none ∧
    ([] : List StreamChunk) = [] := by
  refine ⟨?_, ?_, ?_, ?_⟩
  · exact malformed_json_dialect_behavior.1 malformedOracle "data: notjson"
      "notjson" "expected value at line 1 column 1" (by decide) (by decide) rfl
  · exact malformed_json_dialect_behavior.2.1 malformedOracle "data: notjson"
      "notjson" "expected value at line 1 column 1" (by decide) rfl
  · exact malformed_json_dialect_behavior.2.2.1 malformedOracle "notjson"
      "expected value at line 1 column 1" (by decide) (by decide) rfl
  · exact malformed_json_dialect_behavior.2.2.2 .OpenAI malformedOracle
      [.ok "data: notjson\n"] []
      "JSON parse error: expected value at line 1 column 1" [] (by decide)

/-! ### Claim C5: OpenAI finish_reason frames -/

/-- An OpenAI frame whose `choices[0].finish_reason` is `"tool_calls"`
and which carries no content delta. -/
def finishReasonJson : Json :=
  .obj [("choices", .arr [.obj [("finish_reason", .str "tool_calls")]])]

/-- The JSON document text for `finishReasonJson`. -/
def finishReasonDoc : String :=
  "\x7b\"choices\":[\x7b\"finish_reason\":\"tool_calls\"\x7d]\x7d"

/-- Oracle parsing `finishReasonDoc` to `finishReasonJson`. -/
def finishReasonOracle : String → Except String Json := fun s =>
  if s = finishReasonDoc then .ok finishReasonJson
  else .error "expected value at line 1 column 1"

/-- Counterexample to claim C5 as stated: a frame with
`choices[0].finish_reason` present (value `"tool_calls"`) and no content
delta produces no chunk at all — the parser only terminates on
`finish_reason` values `"stop"` and `"length"`. -/
theorem finish_reason_claim_counterexample :
    finishReasonOracle finishReasonDoc = .ok finishReasonJson ∧
    (((finishReasonJson.getKey "choices").getIdx 0).getKey
      "finish_reason").asStr = some "tool_calls" ∧
    ((((finishReasonJson.getKey "choices").getIdx 0).getKey "delta").getKey
      "content").asStr = none ∧
    parse_sse_line finishReasonOracle ("data: " ++ finishReasonDoc) .OpenAI
      = none :=
  ⟨rfl, rfl, rfl, rfl⟩

/-- Claim C5 (amended): for every OpenAI-dialect `data:` frame carrying no
content delta whose `choices[0].finish_reason` is present and equal to
`"stop"` or `"length"`, the parser yields a `Done` chunk whose usage is
taken from the `usage` object of the same frame when present (prompt and
completion counters, `u32`-cast) and is the default (empty) usage
otherwise. -/
theorem openai_finish_reason_behavior :
    (∀ (fromStr : String → Except String Json) (line data : String)
        (j : Json) (reason : String),
        dataPayload (strTrim line) = some data →
        (strTrim data == "[DONE]") = false →
        fromStr data = .ok j →
        (((((j.getKey "choices").getIdx 0).getKey "delta").getKey
            "content").asStr = none ∨
          ((((j.getKey "choices").getIdx 0).getKey "delta").getKey
            "content").asStr = some "") →
        (((j.getKey "choices").getIdx 0).getKey "finish_reason").asStr
          = some reason →
        (reason = "stop" ∨ reason = "length") →
        parse_sse_line fromStr line .OpenAI = some (.Done (openaiUsage j))) ∧
    (∀ j : Json, (j.getOpt "usage" = none → openaiUsage j = TokenUsage.default) ∧
      ∀ u, j.getOpt "usage" = some u →
        openaiUsage j = TokenUsage.new
          (toU32 (((u.getKey "prompt_tokens").asU64).getD 0))
          (toU32 (((u.getKey "completion_tokens").asU64).getD 0))) := by
  constructor
  · intro fromStr line data j reason hdata hdone hfrom hnodelta hfin hreason
    have hs : strStarts (strTrim line) "data: " = true := by
      by_contra hns
      rw [Bool.not_eq_true] at hns
      simp [dataPayload, hns] at hdata
    obtain ⟨hne, hcol, _⟩ := strStarts_data_head hs
    have hrb : (reason == "stop" || reason == "length") = true := by
      rcases hreason with rfl | rfl <;> decide
    rcases hnodelta with hc | hc <;>
      simp [parse_sse_line, hne, hcol, parse_openai_sse, hdata, hdone, hfrom,
        hc, openaiFinish, hfin, hrb, show strIsEmpty "" = true from rfl]
  · intro j
    constructor
    · intro h
      simp [openaiUsage, h]
    · intro u h
      simp [openaiUsage, h]

/-- An OpenAI frame with `finish_reason: "stop"` and a `usage` object. -/
def stopUsageJson : Json :=
  .obj [("choices", .arr [.obj [("finish_reason", .str "stop")]]),
    ("usage", .obj [("prompt_tokens", .num 7), ("completion_tokens", .num 5)])]

/-- The JSON document text for `stopUsageJson`. -/
def stopUsageDoc : String :=
  "\x7b\"choices\":[\x7b\"finish_reason\":\"stop\"\x7d],\"usage\":\x7b\"prompt_tokens\":7,\"completion_tokens\":5\x7d\x7d"

/-- Oracle parsing `stopUsageDoc` to `stopUsageJson`. -/
def stopUsageOracle : String → Except String Json := fun s =>
  if s = stopUsageDoc then .ok stopUsageJson
  else .error "expected value at line 1 column 1"

/-- Witness for `openai_finish_reason_behavior` at a concrete frame. -/
theorem openai_finish_reason_behavior_witness :
    parse_sse_line stopUsageOracle ("data: " ++ stopUsageDoc) .OpenAI
      = some (.Done (TokenUsage.new 7 5)) := by
  have h := openai_finish_reason_behavior.1 stopUsageOracle
    ("data: " ++ stopUsageDoc) stopUsageDoc stopUsageJson "stop"
    (by decide) (by decide) rfl (Or.inl rfl) rfl (Or.inl rfl)
  simpa using h

/-! ### Credit tracker (`src/api/venice.rs`), claims C2 and C9

The provider holds a `VeniceBalance` behind a lock and an atomic boolean
`credits_exhausted`; both are modelled as plain fields of a state record,
and each provider method becomes a state transformer whose extra inputs
stand for the I/O it performs (HTTP responses, the probe result, clock
ticks). The `Bool` in the result triple of the send operations records
whether an HTTP request was issued. -/

/-- `StopReason` from `src/api/response.rs`. -/
inductive StopReason where
  | EndTurn
  | MaxTokens
  | StopSequence
  | ToolUse
deriving DecidableEq, Repr

/-- `ApiResponse` from `src/api/response.rs`. -/
structure ApiResponse where
  content : String
  usage : TokenUsage
  model : String
  truncated : Bool
  stop_reason : Option StopReason
deriving DecidableEq, Repr

/-- `ApiError` from `src/api/mod.rs` (payloads reduced to message strings). -/
inductive ApiError where
  | Http (msg : String)
  | Auth (msg : String)
  | RateLimited (retry_after_secs : Nat)
  | Provider (msg : String)
  | Serialization (msg : String)
deriving DecidableEq, Repr

/-- The fields of `VeniceConfig` the modelled operations read. -/
structure VeniceConfig where
  model : String
  min_balance_usd : ℚ
  min_balance_diem : ℚ

/-- `VeniceBalance` from `src/api/venice.rs`. -/
structure VeniceBalance where
  balance_usd : ℚ
  balance_diem : ℚ
  exhausted : Bool
  last_updated : Option Nat
deriving DecidableEq

/-- The mutable state of a `VeniceProvider`: the locked `VeniceBalance`
and the atomic `credits_exhausted` flag. -/
structure VeniceProviderState where
  balance : VeniceBalance
  credits_exhausted : Bool
deriving DecidableEq

/-- `VeniceProvider::is_exhausted` (atomic load). -/
def is_exhausted (s : VeniceProviderState) : Bool := s.credits_exhausted

/-- The parts of an HTTP response that `VeniceProvider` reads: the status,
the two parsed balance headers (`x-venice-balance-usd` / `-diem`, absent or
unparsable headers are `none`), the body parsed as JSON (success path) and
the body text (error path). -/
structure HttpResp where
  status : Nat
  header_usd : Option ℚ
  header_diem : Option ℚ
  body_json : Json
  body_text : String

/-- `VeniceProvider::update_balance_from_headers` (lines 137-167). -/
def update_balance_from_headers (cfg : VeniceConfig) (s : VeniceProviderState)
    (resp : HttpResp) (now : Nat) : VeniceProviderState :=
  let b0 := s.balance
  let b1 := match resp.header_usd with
    | some usd => { b0 with balance_usd := usd }
    | none => b0
  let b2 := match resp.header_diem with
    | some diem => { b1 with balance_diem := diem }
    | none => b1
  let b3 := { b2 with last_updated := some now }
  if b3.balance_usd < cfg.min_balance_usd ∧
      b3.balance_diem < cfg.min_balance_diem then
    { balance := { b3 with exhausted := true }, credits_exhausted := true }
  else
    { s with balance := b3 }

/-- `VeniceProvider::fetch_balance` (lines 97-134). The probe result stands
for the HTTP GET: `ok (usd, diem)` is a success body with its parsed
`balance_usd` / `balance_diem` fields (`as_f64().unwrap_or(0.0)`), `error`
is a non-success status. Note the freshly stored balance carries
`exhausted: false`, and `credits_exhausted` is only ever stored `true`. -/
def fetch_balance (cfg : VeniceConfig) (s : VeniceProviderState)
    (probe : Except String (ℚ × ℚ)) (now : Nat) :
    Except String VeniceBalance × VeniceProviderState :=
  match probe with
  | .error e => (.error e, s)
  | .ok (usd, diem) =>
    let balance : VeniceBalance :=
      { balance_usd := usd, balance_diem := diem, exhausted := false,
        last_updated := some now }
    let s1 := { s with balance := balance }
    if usd < cfg.min_balance_usd ∧ diem < cfg.min_balance_diem then
      (.ok balance, { s1 with credits_exhausted := true })
    else
      (.ok balance, s1)

/-- `VeniceProvider::parse_response` (lines 230-248). -/
def venice_parse_response (cfg : VeniceConfig) (json : Json) : ApiResponse :=
  { content := (((((json.getKey "choices").getIdx 0).getKey "message").getKey
      "content").asStr).getD ""
    usage := TokenUsage.new
      (toU32 ((((json.getKey "usage").getKey "prompt_tokens").asU64).getD 0))
      (toU32 ((((json.getKey "usage").getKey "completion_tokens").asU64).getD 0))
    model := ((json.getKey "model").asStr).getD cfg.model
    truncated := (((json.getKey "choices").getIdx 0).getKey
      "finish_reason").asStr == some "length"
    stop_reason := none }

/-- The 429-body markers of credit exhaustion (lines 285-287). -/
def exhaustion_markers (body : String) : Bool :=
  strContains body "insufficient" || strContains body "quota" ||
    strContains body "balance"

/-- `reqwest::StatusCode::is_success()`. -/
def statusIsSuccess (status : Nat) : Bool :=
  decide (200 ≤ status ∧ status ≤ 299)

/-- `VeniceProvider::send_request` (lines 253-302). `http` is the outcome
of the POST (`error` = transport failure propagated by `?`). Result:
the `Result` value, whether HTTP was issued, and the new state. -/
def send_request (cfg : VeniceConfig) (s : VeniceProviderState)
    (http : Except String HttpResp) (now : Nat) :
    Except ApiError ApiResponse × Bool × VeniceProviderState :=
  if is_exhausted s then
    (.error (.Provider "Venice credits exhausted - fallback required"),
      false, s)
  else
    match http with
    | .error e => (.error (.Http e), true, s)
    | .ok resp =>
      let s1 := update_balance_from_headers cfg s resp now
      if statusIsSuccess resp.status then
        (.ok (venice_parse_response cfg resp.body_json), true, s1)
      else if resp.status == 429 then
        if exhaustion_markers resp.body_text then
          (.error (.Provider "Venice credits exhausted - fallback required"),
            true, { s1 with credits_exhausted := true })
        else
          (.error (.RateLimited 60), true, s1)
      else
        (.error (.Provider (toString resp.status ++ ": " ++ resp.body_text)),
          true, s1)

/-- `VeniceProvider::send_streaming` (lines 315-397) up to handing the body
to the spawned task (whose chunk behavior is `send_streaming_chunks`):
the exhaustion check, the POST, the header scrape and the status check. -/
def send_streaming (cfg : VeniceConfig) (s : VeniceProviderState)
    (http : Except String HttpResp) (now : Nat) :
    Except ApiError Unit × Bool × VeniceProviderState :=
  if is_exhausted s then
    (.error (.Provider "Venice credits exhausted - fallback required"),
      false, s)
  else
    match http with
    | .error e => (.error (.Http e), true, s)
    | .ok resp =>
      let s1 := update_balance_from_headers cfg s resp now
      if statusIsSuccess resp.status then
        (.ok (), true, s1)
      else if resp.status == 429 && exhaustion_markers resp.body_text then
        (.error (.Provider "Venice credits exhausted - fallback required"),
          true, { s1 with credits_exhausted := true })
      else
        (.error (.Provider (toString resp.status ++ ": " ++ resp.body_text)),
          true, s1)

/-- The operations of a `VeniceProvider` that touch its state. -/
inductive VeniceOp where
  | fetchBalance (probe : Except String (ℚ × ℚ)) (now : Nat)
  | sendRequest (http : Except String HttpResp) (now : Nat)
  | sendStreaming (http : Except String HttpResp) (now : Nat)
  | updateFromHeaders (resp : HttpResp) (now : Nat)

/-- State effect of one provider operation. -/
def veniceStep (cfg : VeniceConfig) (s : VeniceProviderState) :
    VeniceOp → VeniceProviderState
  | .fetchBalance probe now => (fetch_balance cfg s probe now).2
  | .sendRequest http now => (send_request cfg s http now).2.2
  | .sendStreaming http now => (send_streaming cfg s http now).2.2
  | .updateFromHeaders resp now => update_balance_from_headers cfg s resp now

/-- No provider operation clears `credits_exhausted`. -/
theorem veniceStep_preserves_exhausted (cfg : VeniceConfig)
    (s : VeniceProviderState) (op : VeniceOp)
    (h : s.credits_exhausted = true) :
    (veniceStep cfg s op).credits_exhausted = true := by
  cases op with
  | fetchBalance probe now =>
    cases probe with
    | error e => simpa [veniceStep, fetch_balance] using h
    | ok p =>
      obtain ⟨usd, diem⟩ := p
      simp only [veniceStep, fetch_balance]
      split <;> simp [h]
  | sendRequest http now =>
    simp [veniceStep, send_request, is_exhausted, h]
  | sendStreaming http now =>
    simp [veniceStep, send_streaming, is_exhausted, h]
  | updateFromHeaders resp now =>
    simp only [veniceStep, update_balance_from_headers]
    split <;> simp [h]

/-- Once exhausted, every trace of provider operations stays exhausted. -/
theorem veniceTrace_preserves_exhausted (cfg : VeniceConfig)
    (ops : List VeniceOp) : ∀ s : VeniceProviderState,
    s.credits_exhausted = true →
    (ops.foldl (veniceStep cfg) s).credits_exhausted = true := by
  induction ops with
  | nil => intro s h; simpa using h
  | cons op rest ih =>
    intro s h
    exact ih _ (veniceStep_preserves_exhausted cfg s op h)

/-- Claim C2: once `is_exhausted()` is true it stays true across every
sequence of provider operations (no operation resets it), and every
subsequent `send_request` or `send_streaming` call fails with the
exhaustion error without issuing HTTP (the `false` component) and without
changing the state. -/
theorem credit_exhaustion_persists (cfg : VeniceConfig)
    (s : VeniceProviderState) (h : is_exhausted s = true) :
    (∀ ops : List VeniceOp,
        is_exhausted (ops.foldl (veniceStep cfg) s) = true) ∧
    (∀ http now, send_request cfg s http now
        = (.error (.Provider "Venice credits exhausted - fallback required"),
            false, s)) ∧
    (∀ http now, send_streaming cfg s http now
        = (.error (.Provider "Venice credits exhausted - fallback required"),
            false, s)) := by
  refine ⟨fun ops => veniceTrace_preserves_exhausted cfg ops s h,
    fun http now => ?_, fun http now => ?_⟩
  · simp [send_request, h]
  · simp [send_streaming, h]

/-- A concrete exhausted provider state. -/
def exhaustedState : VeniceProviderState :=
  { balance := { balance_usd := 0
                 balance_diem := 0
                 exhausted := true
                 last_updated := none }
    credits_exhausted := true }

/-- A concrete configuration (the `VeniceConfig::default()` thresholds). -/
def testVeniceConfig : VeniceConfig :=
  { model := "llama-3.3-70b", min_balance_usd := 1/10, min_balance_diem := 1/10 }

/-- Witness for `credit_exhaustion_persists` at concrete inputs. -/
theorem credit_exhaustion_persists_witness :
    is_exhausted
      ([VeniceOp.fetchBalance (.ok (5, 5)) 1,
        VeniceOp.updateFromHeaders
          { status := 200, header_usd := some 9, header_diem := some 9, body_json := .null, body_text := "" } 2].foldl
        (veniceStep testVeniceConfig) exhaustedState) = true ∧
    send_request testVeniceConfig exhaustedState (.error "connection reset") 3
      = (.error (.Provider "Venice credits exhausted - fallback required"),
          false, exhaustedState) ∧
    send_streaming testVeniceConfig exhaustedState (.error "connection reset") 4
      = (.error (.Provider "Venice credits exhausted - fallback required"),
          false, exhaustedState) :=
  ⟨(credit_exhaustion_persists testVeniceConfig exhaustedState (by decide)).1 _,
    (credit_exhaustion_persists testVeniceConfig exhaustedState (by decide)).2.1 _ 3,
    (credit_exhaustion_persists testVeniceConfig exhaustedState (by decide)).2.2 _ 4⟩

/-- `OrchestratorState` from `src/orchestrator/mod.rs`. -/
inductive OrchestratorState where
  | UsingVenice
  | VeniceLow
  | UsingFallback
  | Unavailable
deriving DecidableEq, Repr

/-- `Orchestrator::reset_to_venice` (lines 237-241): restores the primary
only when the provider does not report exhaustion. -/
def reset_to_venice (venice : VeniceProviderState)
    (st : OrchestratorState) : OrchestratorState :=
  if !(is_exhausted venice) then .UsingVenice else st

/-- Claim C9: `fetch_balance` never stores `false` to `credits_exhausted` —
with both probed balances at or above the minima it leaves the flag
unchanged, and an exhausted flag survives it and every other provider
operation; consequently `reset_to_venice` is a no-op once exhaustion has
been observed. -/
theorem fetch_balance_never_clears_exhaustion :
    (∀ (cfg : VeniceConfig) (s : VeniceProviderState) (usd diem : ℚ) (now : Nat),
        cfg.min_balance_usd ≤ usd → cfg.min_balance_diem ≤ diem →
        ((fetch_balance cfg s (.ok (usd, diem)) now).2).credits_exhausted
          = s.credits_exhausted) ∧
    (∀ (cfg : VeniceConfig) (s : VeniceProviderState) (op : VeniceOp),
        s.credits_exhausted = true →
        (veniceStep cfg s op).credits_exhausted = true) ∧
    (∀ (venice : VeniceProviderState) (st : OrchestratorState),
        is_exhausted venice = true → reset_to_venice venice st = st) := by
  refine ⟨?_, veniceStep_preserves_exhausted, ?_⟩
  · intro cfg s usd diem now husd hdiem
    simp [fetch_balance, not_lt.mpr husd]
  · intro venice st h
    simp [reset_to_venice, h]

/-- Witness for `fetch_balance_never_clears_exhaustion` at concrete inputs. -/
theorem fetch_balance_never_clears_exhaustion_witness :
    ((fetch_balance testVeniceConfig exhaustedState (.ok (5, 5)) 1).2).credits_exhausted
      = exhaustedState.credits_exhausted ∧
    (veniceStep testVeniceConfig exhaustedState
      (.fetchBalance (.ok (5, 5)) 1)).credits_exhausted = true ∧
    reset_to_venice exhaustedState .UsingFallback = .UsingFallback :=
  ⟨fetch_balance_never_clears_exhaustion.1 testVeniceConfig exhaustedState
      5 5 1 (by norm_num [testVeniceConfig]) (by norm_num [testVeniceConfig]),
    fetch_balance_never_clears_exhaustion.2.1 testVeniceConfig exhaustedState
      (.fetchBalance (.ok (5, 5)) 1) (by decide),
    fetch_balance_never_clears_exhaustion.2.2 exhaustedState .UsingFallback
      (by decide)⟩

/-! ### Request model (`src/api/request.rs`, `src/cache/mod.rs`) -/

/-- `Role` from `src/api/request.rs`. -/
inductive Role where
  | System
  | User
  | Assistant
deriving DecidableEq, Repr

/-- `Message` from `src/api/request.rs`. -/
structure Message where
  role : Role
  content : String
deriving DecidableEq, Repr

/-- `CacheControlType` from `src/cache/mod.rs`. -/
inductive CacheControlType where
  | Ephemeral
deriving DecidableEq, Repr

/-- `CacheControl` from `src/cache/mod.rs`. -/
structure CacheControl where
  control_type : CacheControlType
deriving DecidableEq, Repr

/-- `ContextType` from `src/api/request.rs`. -/
inductive ContextType where
  | File
  | Snippet
  | Documentation
  | Error
  | Output
deriving DecidableEq, Repr

/-- `ContextItem` from `src/api/request.rs` (`relevance: Option<f32>`
modelled as `Option ℚ`). -/
structure ContextItem where
  name : String
  content : String
  item_type : ContextType
  relevance : Option ℚ
  cache_control : Option CacheControl
  is_static : Bool
deriving DecidableEq, Repr

/-- `RequestConstraints` from `src/api/request.rs`. -/
structure RequestConstraints where
  max_context_tokens : Option Nat
  max_response_tokens : Option Nat
  prefer_concise : Bool
deriving DecidableEq, Repr

/-- `ApiRequest` from `src/api/request.rs`. -/
structure ApiRequest where
  system : Option String
  system_cache_control : Option CacheControl
  messages : List Message
  context : List ContextItem
  task : String
  constraints : Option RequestConstraints
  cache_breakpoints : List Nat
deriving DecidableEq, Repr

/-! ### Cache optimizer (`src/cache/strategy.rs`), claims C4 and C6

The source estimates token counts as `(len as f32 * tokens_per_char) as
usize`. The estimate only feeds threshold comparisons; it is abstracted
here as a parameter `est : String → Nat`, so every theorem below holds for
every estimator (in particular for the float computation of the source). -/

/-- `ContentStability` from `src/cache/strategy.rs`. -/
inductive ContentStability where
  | Static
  | SemiStatic
  | Dynamic
  | Volatile
deriving DecidableEq, Repr

/-- The fields of `CacheConfig` (`src/cache/mod.rs`) the optimizer logic
reads (`tokens_per_char` is absorbed into the estimator parameter). -/
structure CacheConfig where
  min_cache_tokens : Nat
  max_breakpoints : Nat
  auto_reorder : Bool
  pad_to_minimum : Bool
deriving DecidableEq, Repr

/-- `CacheOptimizer::classify_context` (lines 200-236). -/
def classify_context (item : ContextItem) : ContentStability :=
  match item.item_type with
  | .Documentation => .Static
  | .File =>
    if strEnds item.name ".d.ts" || strEnds item.name "types.rs"
        || strEnds item.name "types.py" || strEnds item.name "schema.prisma"
        || strContains item.name "interface" then
      .SemiStatic
    else if strEnds item.name ".json" || strEnds item.name ".toml"
        || strEnds item.name ".yaml" || strEnds item.name ".yml" then
      .SemiStatic
    else
      .Dynamic
  | .Snippet => .Dynamic
  | .Error => .Volatile
  | .Output => .Volatile

/-- The classification loop of `optimize_request` (lines 149-167): drain
the context into the `static_context`, `semi_static_context` and
`dynamic_context` vectors in order. Note that `Dynamic` and `Volatile`
items both land in the third vector (the `_` match arm). -/
def splitBuckets :
    List ContextItem → List ContextItem × List ContextItem × List ContextItem
  | [] => ([], [], [])
  | item :: rest =>
    let r := splitBuckets rest
    match classify_context item with
    | .Static => (item :: r.1, r.2.1, r.2.2)
    | .SemiStatic => (r.1, item :: r.2.1, r.2.2)
    | _ => (r.1, r.2.1, item :: r.2.2)

/-- `BreakpointPosition` from `src/cache/strategy.rs`. -/
inductive BreakpointPosition where
  | AfterSystem
  | AfterContext (idx : Nat)
  | AfterAllContext
deriving DecidableEq, Repr

/-- The context walk of `calculate_breakpoints` (lines 257-273):
accumulate estimated tokens, remember the index of the last
Static/SemiStatic item once the cumulative count reaches the threshold,
and stop at the first Dynamic/Volatile item. -/
def lastStaticScan (min_cache_tokens : Nat) (est : String → Nat) :
    List ContextItem → Nat → Nat → Option Nat → Option Nat
  | [], _, _, acc => acc
  | item :: rest, idx, cumulative, acc =>
    let stability := classify_context item
    let cumulative2 := cumulative + est item.content
    if stability = .Static ∨ stability = .SemiStatic then
      lastStaticScan min_cache_tokens est rest (idx + 1) cumulative2
        (if cumulative2 ≥ min_cache_tokens then some idx else acc)
    else acc

/-- The after-system part of `calculate_breakpoints` (lines 248-253). -/
def systemBreakpoint (cfg : CacheConfig) (est : String → Nat)
    (request : ApiRequest) : List BreakpointPosition :=
  match request.system with
  | some system =>
    if est system ≥ cfg.min_cache_tokens then [.AfterSystem] else []
  | none => []

/-- `CacheOptimizer::calculate_breakpoints` (lines 239-281). -/
def calculate_breakpoints (cfg : CacheConfig) (est : String → Nat)
    (request : ApiRequest) (static_tokens : Nat) : List BreakpointPosition :=
  if static_tokens < cfg.min_cache_tokens then []
  else if (systemBreakpoint cfg est request).length < cfg.max_breakpoints then
    match lastStaticScan cfg.min_cache_tokens est request.context 0 0 none with
    | some idx => systemBreakpoint cfg est request ++ [.AfterContext idx]
    | none => systemBreakpoint cfg est request
  else systemBreakpoint cfg est request

/-- `CacheOptimizedRequest` from `src/cache/strategy.rs`. -/
structure CacheOptimizedRequest where
  request : ApiRequest
  breakpoints : List BreakpointPosition
  static_tokens : Nat
  dynamic_tokens : Nat
  estimated_cache_savings : Nat
deriving Repr

/-- `CacheOptimizer::optimize_request` (lines 132-197): classify the
context into the three buckets, reorder (static, then semi-static, then
the rest) when `auto_reorder` is on, and compute the breakpoint positions.
(The `0.9` savings factor is modelled as `* 9 / 10` in exact arithmetic.) -/
def optimize_request (cfg : CacheConfig) (est : String → Nat)
    (request : ApiRequest) : CacheOptimizedRequest :=
  let buckets := splitBuckets request.context
  let system_tokens := match request.system with
    | some system => est system
    | none => 0
  let static_tokens := system_tokens
    + (buckets.1.map (fun i => est i.content)).sum
    + (buckets.2.1.map (fun i => est i.content)).sum
  let context2 := if cfg.auto_reorder then buckets.1 ++ buckets.2.1 ++ buckets.2.2
    else request.context
  let request2 := { request with context := context2 }
  let breakpoints := calculate_breakpoints cfg est request2 static_tokens
  let dynamic_tokens := (buckets.2.2.map (fun i => est i.content)).sum
    + est request.task
  { request := request2
    breakpoints := breakpoints
    static_tokens := static_tokens
    dynamic_tokens := dynamic_tokens
    estimated_cache_savings :=
      if static_tokens ≥ cfg.min_cache_tokens then static_tokens * 9 / 10
      else 0 }

/-! ### Claim C4: auto-reorder -/

/-- The bucket split is the order-preserving partition by stability, with
`Dynamic` and `Volatile` items sharing the third bucket. -/
theorem splitBuckets_eq_filters (ctx : List ContextItem) :
    splitBuckets ctx
      = (ctx.filter (fun i => classify_context i == .Static),
         ctx.filter (fun i => classify_context i == .SemiStatic),
         ctx.filter (fun i => classify_context i == .Dynamic
           || classify_context i == .Volatile)) := by
  induction ctx with
  | nil => rfl
  | cons item rest ih =>
    cases hcl : classify_context item <;>
      simp [splitBuckets, hcl, ih, List.filter_cons]

/-- A sample Volatile item (`ContextType::Error`). -/
def errItem : ContextItem :=
  { name := "build-error", content := "boom", item_type := .Error,
    relevance := none, cache_control := none, is_static := false }

/-- A sample Dynamic item (`ContextType::Snippet`). -/
def snipItem : ContextItem :=
  { name := "snippet-1", content := "let x = 1;", item_type := .Snippet,
    relevance := none, cache_control := none, is_static := false }

/-- A sample Static item (`ContextType::Documentation`). -/
def docItem : ContextItem :=
  { name := "README.md", content := "docs", item_type := .Documentation,
    relevance := none, cache_control := none, is_static := false }

/-- A sample SemiStatic item (a `.toml` config file). -/
def tomlItem : ContextItem :=
  { name := "Cargo.toml", content := "[package]", item_type := .File,
    relevance := none, cache_control := none, is_static := false }

/-- `CacheConfig::default()` without the float field (`min_cache_tokens`
1024, `max_breakpoints` 4, `auto_reorder` on). -/
def autoReorderConfig : CacheConfig :=
  { min_cache_tokens := 1024, max_breakpoints := 4, auto_reorder := true,
    pad_to_minimum := false }

/-- The default estimator: one token per four characters. -/
def estQuarter (s : String) : Nat := strLen s / 4

/-- Counterexample to claim C4 as stated: with auto-reorder enabled, a
Volatile item placed before a Dynamic item stays before it — `Dynamic` and
`Volatile` items are pooled in one bucket, so Dynamic items do not precede
Volatile ones. -/
theorem auto_reorder_claim_counterexample :
    classify_context errItem = .Volatile ∧
    classify_context snipItem = .Dynamic ∧
    (optimize_request autoReorderConfig estQuarter
      { system := none, system_cache_control := none, messages := [],
        context := [errItem, snipItem], task := "t", constraints := none,
        cache_breakpoints := [] }).request.context = [errItem, snipItem] :=
  ⟨rfl, rfl, by decide⟩

/-- Claim C4 (amended): when auto-reorder is enabled, `optimize_request`
stably reorders the context so that every Static item precedes every
SemiStatic item and every SemiStatic item precedes every Dynamic or
Volatile item; Dynamic and Volatile items share the final tier. Within
each of the three tiers the original relative order is preserved (the
result is exactly the concatenation of the three order-preserving
filters). -/
theorem auto_reorder_stable_tiers (cfg : CacheConfig) (est : String → Nat)
    (request : ApiRequest) (h : cfg.auto_reorder = true) :
    (optimize_request cfg est request).request.context
      = request.context.filter (fun i => classify_context i == .Static)
        ++ request.context.filter (fun i => classify_context i == .SemiStatic)
        ++ request.context.filter (fun i => classify_context i == .Dynamic
            || classify_context i == .Volatile) := by
  simp [optimize_request, h, splitBuckets_eq_filters]

/-- Witness for `auto_reorder_stable_tiers` on a four-item context covering
all four stability tiers. -/
theorem auto_reorder_stable_tiers_witness :
    (optimize_request autoReorderConfig estQuarter
      { system := none, system_cache_control := none, messages := [],
        context := [errItem, docItem, snipItem, tomlItem], task := "t",
        constraints := none, cache_breakpoints := [] }).request.context
      = [docItem, tomlItem, errItem, snipItem] := by
  rw [auto_reorder_stable_tiers autoReorderConfig estQuarter _ rfl]
  decide

/-! ### Claim C6: breakpoint budget -/

/-- The after-system part emits at most one breakpoint. -/
theorem systemBreakpoint_length_le (cfg : CacheConfig) (est : String → Nat)
    (request : ApiRequest) : (systemBreakpoint cfg est request).length ≤ 1 := by
  cases hsys : request.system with
  | none => simp [systemBreakpoint, hsys]
  | some system =>
    simp only [systemBreakpoint, hsys]
    split <;> simp

/-- A configuration with `max_breakpoints := 0` (and no minimum). -/
def zeroBreakpointConfig : CacheConfig :=
  { min_cache_tokens := 0, max_breakpoints := 0, auto_reorder := true,
    pad_to_minimum := false }

/-- A request with only a system prompt. -/
def sysOnlyRequest : ApiRequest :=
  { system := some "You are a helpful assistant", system_cache_control := none,
    messages := [], context := [], task := "t", constraints := none,
    cache_breakpoints := [] }

/-- Counterexample to claim C6 as stated: with `max_breakpoints := 0` the
optimizer still emits the after-system breakpoint (that push is not guarded
by the cap), so the returned list has one element, exceeding
`max_breakpoints`. -/
theorem max_breakpoints_claim_counterexample :
    zeroBreakpointConfig.max_breakpoints = 0 ∧
    (optimize_request zeroBreakpointConfig estQuarter sysOnlyRequest).breakpoints
      = [.AfterSystem] :=
  ⟨rfl, by decide⟩

/-- `calculate_breakpoints` respects the cap whenever the cap is at
least 1. -/
theorem calculate_breakpoints_length_le (cfg : CacheConfig)
    (est : String → Nat) (request : ApiRequest) (static_tokens : Nat)
    (h : 1 ≤ cfg.max_breakpoints) :
    (calculate_breakpoints cfg est request static_tokens).length
      ≤ cfg.max_breakpoints := by
  have hbs := systemBreakpoint_length_le cfg est request
  unfold calculate_breakpoints
  split
  · simp
  · split
    · rename_i hlt
      split
      · simp only [List.length_append, List.length_singleton]
        omega
      · omega
    · omega

/-- Claim C6 (amended): for every request, estimator and cache
configuration with `max_breakpoints ≥ 1`, the optimizer returns at most
`max_breakpoints` breakpoint positions. -/
theorem optimize_request_breakpoint_budget (cfg : CacheConfig)
    (est : String → Nat) (request : ApiRequest)
    (h : 1 ≤ cfg.max_breakpoints) :
    (optimize_request cfg est request).breakpoints.length
      ≤ cfg.max_breakpoints :=
  calculate_breakpoints_length_le cfg est _ _ h

/-- Witness for `optimize_request_breakpoint_budget` at the default cap. -/
theorem optimize_request_breakpoint_budget_witness :
    (optimize_request autoReorderConfig estQuarter sysOnlyRequest).breakpoints.length
      ≤ autoReorderConfig.max_breakpoints :=
  optimize_request_breakpoint_budget autoReorderConfig estQuarter
    sysOnlyRequest (by decide)

/-! ### Claim C7: Anthropic-style cache_control serialization -/

/-- The `block_text` of `ApiAgent::build_claude_request` (line 36). -/
def contextBlockText (ctx : ContextItem) : String :=
  "### " ++ ctx.name ++ "\n```\n" ++ ctx.content ++ "\n```"

/-- One context block of `build_claude_request` (`src/api/client.rs`
lines 35-55): `cache_control: { type: ephemeral }` is attached exactly when
the index is in `cache_breakpoints` or the item carries a per-item
`cache_control`. -/
def contextBlock (request : ApiRequest) (idx : Nat) (ctx : ContextItem) : Json :=
  if request.cache_breakpoints.contains idx || ctx.cache_control.isSome then
    .obj [("type", .str "text"), ("text", .str (contextBlockText ctx)),
      ("cache_control", .obj [("type", .str "ephemeral")])]
  else
    .obj [("type", .str "text"), ("text", .str (contextBlockText ctx))]

/-- The enumerated loop over `request.context` (lines 35-55). -/
def buildContextBlocks (request : ApiRequest) :
    Nat → List ContextItem → List Json
  | _, [] => []
  | idx, ctx :: rest =>
    contextBlock request idx ctx :: buildContextBlocks request (idx + 1) rest

/-- The list of context content blocks of the Claude request body. -/
def build_claude_context_blocks (request : ApiRequest) : List Json :=
  buildContextBlocks request 0 request.context

/-- Whether a serialized block carries a `cache_control` member. -/
def hasCacheControl (j : Json) : Bool :=
  match j with
  | .obj fields => fields.any (fun p => p.1 == "cache_control")
  | _ => false

/-- Indexing the built block list. -/
theorem buildContextBlocks_get? (request : ApiRequest)
    (items : List ContextItem) :
    ∀ (start idx : Nat) (ctx : ContextItem), items.get? idx = some ctx →
    (buildContextBlocks request start items).get? idx
      = some (contextBlock request (start + idx) ctx) := by
  induction items with
  | nil =>
    intro start idx ctx h
    simp at h
  | cons a rest ih =>
    intro start idx ctx h
    cases idx with
    | zero =>
      rw [List.get?_cons_zero] at h
      injection h with h
      subst h
      simp [buildContextBlocks]
    | succ n =>
      rw [List.get?_cons_succ] at h
      have hrec := ih (start + 1) n ctx h
      have harith : start + 1 + n = start + (n + 1) := by omega
      rw [harith] at hrec
      rw [show buildContextBlocks request start (a :: rest)
          = contextBlock request start a
            :: buildContextBlocks request (start + 1) rest from rfl,
        List.get?_cons_succ]
      exact hrec

/-- Claim C7: in the Anthropic-style serialization, the block emitted for
context index `idx` carries `cache_control` exactly when `idx` is listed in
the `cache_breakpoints` of the request or the item has a per-item
`cache_control`; otherwise it is the bare text block. -/
theorem claude_cache_control_exact (request : ApiRequest) (idx : Nat)
    (ctx : ContextItem) (h : request.context.get? idx = some ctx) :
    (build_claude_context_blocks request).get? idx
      = some (contextBlock request idx ctx) ∧
    hasCacheControl (contextBlock request idx ctx)
      = (request.cache_breakpoints.contains idx || ctx.cache_control.isSome) ∧
    ((request.cache_breakpoints.contains idx || ctx.cache_control.isSome)
        = false →
      contextBlock request idx ctx
        = .obj [("type", .str "text"),
            ("text", .str (contextBlockText ctx))]) := by
  refine ⟨?_, ?_, ?_⟩
  · have := buildContextBlocks_get? request request.context 0 idx ctx h
    simpa [build_claude_context_blocks] using this
  · by_cases hc : (request.cache_breakpoints.contains idx
        || ctx.cache_control.isSome) = true
    · rw [hc]
      simp only [contextBlock, hc, if_true]
      rfl
    · rw [Bool.not_eq_true] at hc
      rw [hc]
      simp only [contextBlock, hc, Bool.false_eq_true, if_false]
      rfl
  · intro hfalse
    simp only [contextBlock, hfalse, Bool.false_eq_true, if_false]

/-- A context item carrying a per-item `cache_control`. -/
def cacheCtlItem : ContextItem :=
  { name := "guide.md", content := "usage guide", item_type := .Documentation,
    relevance := none, cache_control := some { control_type := .Ephemeral },
    is_static := true }

/-- A bare context item. -/
def bareItem : ContextItem :=
  { name := "main.rs", content := "fn main()", item_type := .File,
    relevance := none, cache_control := none, is_static := false }

/-- A request with a breakpoint at index 0 and a flagged item at index 1. -/
def c7request : ApiRequest :=
  { system := none, system_cache_control := none, messages := [],
    context := [bareItem, cacheCtlItem, bareItem], task := "t",
    constraints := none, cache_breakpoints := [0] }

/-- Witness for `claude_cache_control_exact` at concrete indices. -/
theorem claude_cache_control_exact_witness :
    (build_claude_context_blocks c7request).get? 1
      = some (contextBlock c7request 1 cacheCtlItem) ∧
    hasCacheControl (contextBlock c7request 1 cacheCtlItem)
      = (c7request.cache_breakpoints.contains 1
          || cacheCtlItem.cache_control.isSome) ∧
    ((c7request.cache_breakpoints.contains 2
        || bareItem.cache_control.isSome) = false →
      contextBlock c7request 2 bareItem
        = .obj [("type", .str "text"),
            ("text", .str (contextBlockText bareItem))]) :=
  ⟨(claude_cache_control_exact c7request 1 cacheCtlItem (by decide)).1,
    (claude_cache_control_exact c7request 1 cacheCtlItem (by decide)).2.1,
    (claude_cache_control_exact c7request 2 bareItem (by decide)).2.2⟩

/-! ### Session (`src/orchestrator/session.rs`), claim C8 -/

/-- `SessionConfig` from `src/orchestrator/session.rs`. -/
structure SessionConfig where
  max_history : Nat
  include_history_in_handoff : Bool
  compress_history : Bool
  timeout_secs : Option Nat
deriving DecidableEq, Repr

/-- `SessionState` from `src/orchestrator/session.rs`. -/
inductive SessionState where
  | Active
  | HandedOff
  | Completed
  | Expired
deriving DecidableEq, Repr

/-- `Turn` from `src/orchestrator/session.rs`. -/
structure Turn where
  request_summary : String
  response_summary : String
  provider : String
  tokens_used : Nat
  timestamp : Option Nat
deriving DecidableEq, Repr

/-- `Session` from `src/orchestrator/session.rs`. -/
structure Session where
  id : String
  config : SessionConfig
  state : SessionState
  history : List Turn
  context : List ContextItem
  initial_provider : String
  current_provider : String
  started_at : Nat
  total_tokens : Nat
  total_cost : ℚ
deriving DecidableEq, Repr

/-- The `Turn` value constructed by `Session::record_turn` (lines 104-125):
summaries are truncated to a 200/500-character head with an appended
`"..."`. -/
def turnOf (request : ApiRequest) (response : ApiResponse)
    (provider : String) (now : Nat) : Turn :=
  { request_summary :=
      if strLen request.task > 200 then strTake request.task 200 ++ "..."
      else request.task
    response_summary :=
      if strLen response.content > 500 then strTake response.content 500 ++ "..."
      else response.content
    provider := provider
    tokens_used := response.usage.total_tokens
    timestamp := some now }

/-- The `while self.history.len() > max_history { remove(0) }` loop
(lines 135-137), written as structural recursion on the list. -/
def trim_history (max_history : Nat) : List Turn → List Turn
  | [] => []
  | x :: rest =>
    if rest.length + 1 > max_history then trim_history max_history rest
    else x :: rest

/-- `Session::record_turn` (lines 104-138). -/
def record_turn (s : Session) (request : ApiRequest) (response : ApiResponse)
    (provider : String) (now : Nat) : Session :=
  let turn := turnOf request response provider now
  { s with
    history := trim_history s.config.max_history (s.history ++ [turn])
    total_tokens := s.total_tokens + response.usage.total_tokens
    total_cost :=
      match response.usage.estimated_cost_usd with
      | some cost => s.total_cost + cost
      | none => s.total_cost }

/-- A 201-character task string. -/
def longTask : String := String.mk (List.replicate 201 'a')

/-- A request carrying `longTask`. -/
def longTaskRequest : ApiRequest :=
  { system := none, system_cache_control := none, messages := [],
    context := [], task := longTask, constraints := none,
    cache_breakpoints := [] }

/-- A small response. -/
def okResponse : ApiResponse :=
  { content := "ok", usage := TokenUsage.new 1 2, model := "m",
    truncated := false, stop_reason := none }

/-- A fresh session with the default configuration. -/
def freshSession : Session :=
  { id := "s1"
    config := { max_history := 20, include_history_in_handoff := true,
                compress_history := true, timeout_secs := some 3600 }
    state := .Active
    history := []
    context := []
    initial_provider := "Venice"
    current_provider := "Venice"
    started_at := 0
    total_tokens := 0
    total_cost := 0 }

set_option maxRecDepth 16384 in
/-- Counterexample to claim C8 as stated: for a 201-character task the
stored request summary is the 200-character head *followed by `"..."`*,
which is not the first 200 characters of the task. -/
theorem record_turn_claim_counterexample :
    strLen longTaskRequest.task = 201 ∧
    (record_turn freshSession longTaskRequest okResponse "Venice" 1).history
      = [turnOf longTaskRequest okResponse "Venice" 1] ∧
    (turnOf longTaskRequest okResponse "Venice" 1).request_summary
      = strTake longTask 200 ++ "..." ∧
    (turnOf longTaskRequest okResponse "Venice" 1).request_summary
      ≠ strTake longTask 200 :=
  ⟨by decide, by decide, by decide, by decide⟩

/-- Trimming from the front preserves the last element. -/
theorem trim_history_getLast? (max_history : Nat)
    (hmax : 1 ≤ max_history) :
    ∀ l : List Turn, l ≠ [] →
      (trim_history max_history l).getLast? = l.getLast? := by
  intro l
  induction l with
  | nil => intro h; exact absurd rfl h
  | cons x rest ih =>
    intro _
    by_cases hlen : rest.length + 1 > max_history
    · have hne : rest ≠ [] := by
        intro heq
        rw [heq] at hlen
        simp at hlen
        omega
      obtain ⟨y, t, rfl⟩ := List.exists_cons_of_ne_nil hne
      rw [show trim_history max_history (x :: y :: t)
          = if (y :: t).length + 1 > max_history then
              trim_history max_history (y :: t)
            else x :: y :: t from rfl,
        if_pos hlen, ih (by simp), List.getLast?_cons_cons]
    · rw [show trim_history max_history (x :: rest)
          = if rest.length + 1 > max_history then
              trim_history max_history rest
            else x :: rest from rfl,
        if_neg hlen]

/-- Claim C8 (amended): `record_turn` stores a request summary equal to the
whole task when it is at most 200 characters and the first 200 characters
followed by `"..."` otherwise, and a response summary equal to the whole
content when at most 500 characters and the first 500 characters followed
by `"..."` otherwise; the stored turn is the last history entry (whenever
`max_history ≥ 1`, so that the new turn survives trimming). -/
theorem record_turn_truncated_summaries (request : ApiRequest)
    (response : ApiResponse) (provider : String) (now : Nat) (s : Session)
    (hmax : 1 ≤ s.config.max_history) :
    (turnOf request response provider now).request_summary
      = (if strLen request.task > 200 then strTake request.task 200 ++ "..."
          else request.task) ∧
    (turnOf request response provider now).response_summary
      = (if strLen response.content > 500 then
          strTake response.content 500 ++ "..." else response.content) ∧
    (record_turn s request response provider now).history.getLast?
      = some (turnOf request response provider now) := by
  refine ⟨rfl, rfl, ?_⟩
  show (trim_history s.config.max_history
      (s.history ++ [turnOf request response provider now])).getLast? = _
  rw [trim_history_getLast? _ hmax _ (by simp)]
  exact List.getLast?_concat _

/-- Witness for `record_turn_truncated_summaries` at concrete inputs. -/
theorem record_turn_truncated_summaries_witness :
    (turnOf longTaskRequest okResponse "Venice" 1).request_summary
      = (if strLen longTaskRequest.task > 200 then
          strTake longTaskRequest.task 200 ++ "..." else longTaskRequest.task) ∧
    (turnOf longTaskRequest okResponse "Venice" 1).response_summary
      = (if strLen okResponse.content > 500 then
          strTake okResponse.content 500 ++ "..." else okResponse.content) ∧
    (record_turn freshSession longTaskRequest okResponse "Venice" 1).history.getLast?
      = some (turnOf longTaskRequest okResponse "Venice" 1) :=
  record_turn_truncated_summaries longTaskRequest okResponse "Venice" 1
    freshSession (by decide)

/-! ### Cache tracker (`src/cache/tracker.rs`), claim C10

The `HashMap<String, CacheEntry>` is modelled as an association list with
pairwise-distinct keys (the hash map invariant, a hypothesis where it
matters); `HashMap::insert` replaces the entry of an existing key. The
iteration order of the map is arbitrary in Rust; the list order stands in
for it, and none of the proved facts depend on it. -/

/-- `ContentStabilityLevel` from `src/cache/tracker.rs`. -/
inductive ContentStabilityLevel where
  | Permanent
  | Session
  | Temporal (d : Nat)
deriving DecidableEq, Repr

/-- `CacheEntry` from `src/cache/tracker.rs`. -/
structure CacheEntry where
  content_hash : Nat
  token_count : Nat
  created_at : Nat
  last_accessed : Nat
  hit_count : Nat
  stability : ContentStabilityLevel
deriving DecidableEq, Repr

/-- The `filter` of `evict_lru` (line 244): non-permanent entries only. -/
def nonPermanent (entries : List (String × CacheEntry)) :
    List (String × CacheEntry) :=
  entries.filter (fun p => p.2.stability != ContentStabilityLevel.Permanent)

/-- The keys selected for eviction by `evict_lru` (lines 239-250): the
oldest (by `last_accessed`) `max_entries / 4` non-permanent entries.
`sort_by_key` is a stable sort, modelled by `mergeSort`. -/
def evictVictims (max_entries : Nat)
    (entries : List (String × CacheEntry)) : List String :=
  ((((nonPermanent entries).map (fun p => (p.1, p.2.last_accessed))).mergeSort
      (fun a b => decide (a.2 ≤ b.2))).take (max_entries / 4)).map
    (fun p => p.1)

/-- `CacheTracker::evict_lru` (lines 238-253). -/
def evict_lru (max_entries : Nat) (entries : List (String × CacheEntry)) :
    List (String × CacheEntry) :=
  entries.filter (fun p => !((evictVictims max_entries entries).contains p.1))

/-- `HashMap::insert`: replace the entry of an existing key, else add. -/
def insertEntry (entries : List (String × CacheEntry)) (key : String)
    (e : CacheEntry) : List (String × CacheEntry) :=
  if entries.any (fun p => p.1 == key) then
    entries.map (fun p => if p.1 == key then (key, e) else p)
  else entries ++ [(key, e)]

/-- `CacheTracker::cache_content` (lines 131-160): evict when at capacity,
then insert unconditionally. -/
def cache_content (max_entries : Nat) (entries : List (String × CacheEntry))
    (key : String) (content_hash : Nat) (token_count : Nat)
    (permanent : Bool) (now : Nat) : List (String × CacheEntry) :=
  let entries1 := if entries.length ≥ max_entries then
    evict_lru max_entries entries else entries
  insertEntry entries1 key
    { content_hash := content_hash
      token_count := token_count
      created_at := now
      last_accessed := now
      hit_count := 0
      stability := if permanent then ContentStabilityLevel.Permanent
        else ContentStabilityLevel.Session }

/-- Splitting a list by a boolean predicate preserves the total length. -/
theorem length_filter_bool_split {α : Type} (p : α → Bool) (l : List α) :
    (l.filter p).length + (l.filter (fun a => !(p a))).length = l.length := by
  induction l with
  | nil => rfl
  | cons a t ih =>
    cases hp : p a <;> simp [List.filter_cons, hp] <;> omega

/-- In an association list with pairwise-distinct keys, a key determines
its value. -/
theorem keyNodup_unique {α β : Type} {k : α} {a b : β} :
    ∀ l : List (α × β), (l.map Prod.fst).Nodup →
      (k, a) ∈ l → (k, b) ∈ l → a = b := by
  intro l
  induction l with
  | nil =>
    intro _ ha _
    simp at ha
  | cons x t ih =>
    intro h ha hb
    rw [List.map_cons, List.nodup_cons] at h
    rcases List.mem_cons.mp ha with ha1 | ha2
    · rcases List.mem_cons.mp hb with hb1 | hb2
      · have hab := ha1.trans hb1.symm
        simpa using congrArg Prod.snd hab
      · exfalso
        apply h.1
        rw [← ha1]
        exact List.mem_map.mpr ⟨(k, b), hb2, rfl⟩
    · rcases List.mem_cons.mp hb with hb1 | hb2
      · exfalso
        apply h.1
        rw [← hb1]
        exact List.mem_map.mpr ⟨(k, a), ha2, rfl⟩
      · exact ih h.2 ha2 hb2

/-- Every eviction victim is the key of a non-permanent entry. -/
theorem evictVictims_subset (max_entries : Nat)
    (entries : List (String × CacheEntry)) :
    evictVictims max_entries entries ⊆ (nonPermanent entries).map Prod.fst := by
  intro k hk
  unfold evictVictims at hk
  obtain ⟨q, hq, rfl⟩ := List.mem_map.mp hk
  have hq2 := List.take_subset _ _ hq
  have hq3 := (List.mergeSort_perm _ _).subset hq2
  obtain ⟨p, hp, hpe⟩ := List.mem_map.mp hq3
  exact List.mem_map.mpr ⟨p, hp, congrArg Prod.fst hpe⟩

/-- At most `max_entries / 4` keys are selected for eviction. -/
theorem evictVictims_length_le (max_entries : Nat)
    (entries : List (String × CacheEntry)) :
    (evictVictims max_entries entries).length ≤ max_entries / 4 := by
  unfold evictVictims
  rw [List.length_map]
  exact List.length_take_le _ _

/-- `evict_lru` never removes a permanent entry. -/
theorem evict_lru_keeps_permanent (max_entries : Nat)
    (entries : List (String × CacheEntry)) (k : String) (e : CacheEntry)
    (hnd : (entries.map Prod.fst).Nodup) (hmem : (k, e) ∈ entries)
    (hperm : e.stability = ContentStabilityLevel.Permanent) :
    (k, e) ∈ evict_lru max_entries entries := by
  unfold evict_lru
  rw [List.mem_filter]
  refine ⟨hmem, ?_⟩
  rw [Bool.not_eq_true']
  by_contra hc
  rw [Bool.not_eq_false] at hc
  have hk : k ∈ evictVictims max_entries entries := by simpa using hc
  obtain ⟨p, hp, hpk⟩ := List.mem_map.mp (evictVictims_subset _ _ hk)
  unfold nonPermanent at hp
  rw [List.mem_filter] at hp
  have hpmem : (k, p.2) ∈ entries := by
    rw [← hpk]
    simpa using hp.1
  have hpe : p.2 = e := keyNodup_unique entries hnd hpmem hmem
  have hpne : p.2.stability ≠ ContentStabilityLevel.Permanent :=
    bne_iff_ne.mp hp.2
  rw [hpe, hperm] at hpne
  exact hpne rfl

/-- `evict_lru` removes at most `max_entries / 4` entries. -/
theorem evict_lru_bounded (max_entries : Nat)
    (entries : List (String × CacheEntry))
    (hnd : (entries.map Prod.fst).Nodup) :
    entries.length ≤ (evict_lru max_entries entries).length
      + max_entries / 4 := by
  set vs := evictVictims max_entries entries with hvs
  have hsplit := length_filter_bool_split (fun p => !(vs.contains p.1)) entries
  simp only [Bool.not_not] at hsplit
  have hrem : (entries.filter (fun p => vs.contains p.1)).length
      ≤ vs.length := by
    have hnd2 : ((entries.filter (fun p => vs.contains p.1)).map Prod.fst).Nodup :=
      ((List.filter_sublist entries).map Prod.fst).nodup hnd
    have hsub : (entries.filter (fun p => vs.contains p.1)).map Prod.fst ⊆ vs := by
      intro x hx
      obtain ⟨p, hp, rfl⟩ := List.mem_map.mp hx
      rw [List.mem_filter] at hp
      simpa using hp.2
    calc (entries.filter (fun p => vs.contains p.1)).length
        = ((entries.filter (fun p => vs.contains p.1)).map Prod.fst).length :=
          (List.length_map _ _).symm
      _ = ((entries.filter (fun p => vs.contains p.1)).map Prod.fst).toFinset.card :=
          (List.toFinset_card_of_nodup hnd2).symm
      _ ≤ vs.toFinset.card :=
          Finset.card_le_card
            (fun x hx => List.mem_toFinset.mpr (hsub (List.mem_toFinset.mp hx)))
      _ ≤ vs.length := List.toFinset_card_le vs
  have hvslen : vs.length ≤ max_entries / 4 :=
    evictVictims_length_le max_entries entries
  unfold evict_lru
  rw [← hvs]
  omega

/-- With only permanent entries, eviction removes nothing. -/
theorem evict_lru_all_permanent (max_entries : Nat)
    (entries : List (String × CacheEntry))
    (hall : ∀ p ∈ entries, p.2.stability = ContentStabilityLevel.Permanent) :
    evict_lru max_entries entries = entries := by
  have hnp : nonPermanent entries = [] := by
    unfold nonPermanent
    rw [List.filter_eq_nil]
    intro p hp
    simp [hall p hp]
  unfold evict_lru evictVictims
  rw [hnp]
  simp [List.mergeSort_nil]

/-- Insertion always leaves the key present. -/
theorem insertEntry_mem_key (entries : List (String × CacheEntry))
    (key : String) (e : CacheEntry) :
    (insertEntry entries key e).any (fun p => p.1 == key) = true := by
  unfold insertEntry
  split
  · rename_i h
    rw [List.any_eq_true] at h ⊢
    obtain ⟨p, hp, hpk⟩ := h
    refine ⟨(key, e), List.mem_map.mpr ⟨p, hp, by simp [hpk]⟩, by simp⟩
  · rw [List.any_eq_true]
    exact ⟨(key, e), by simp, by simp⟩

/-- Claim C10: `evict_lru` never removes a Permanent entry and removes at
most `max_entries / 4` entries; `cache_content` always leaves the new key
present whether or not anything was evicted; consequently, inserting a
fresh key into a table at capacity whose entries are all Permanent makes
the entry count exceed `max_entries`. -/
theorem cache_content_exceeds_capacity_on_permanent :
    (∀ (max_entries : Nat) (entries : List (String × CacheEntry))
        (k : String) (e : CacheEntry),
        (entries.map Prod.fst).Nodup → (k, e) ∈ entries →
        e.stability = ContentStabilityLevel.Permanent →
        (k, e) ∈ evict_lru max_entries entries) ∧
    (∀ (max_entries : Nat) (entries : List (String × CacheEntry)),
        (entries.map Prod.fst).Nodup →
        entries.length ≤ (evict_lru max_entries entries).length
          + max_entries / 4) ∧
    (∀ max_entries entries key content_hash token_count permanent now,
        (cache_content max_entries entries key content_hash token_count
          permanent now).any (fun p => p.1 == key) = true) ∧
    (∀ max_entries entries key content_hash token_count permanent now,
        entries.length = max_entries →
        (∀ p ∈ entries,
          p.2.stability = ContentStabilityLevel.Permanent) →
        entries.any (fun p => p.1 == key) = false →
        (cache_content max_entries entries key content_hash token_count
          permanent now).length = max_entries + 1) := by
  refine ⟨evict_lru_keeps_permanent, evict_lru_bounded, ?_, ?_⟩
  · intro max_entries entries key content_hash token_count permanent now
    unfold cache_content
    exact insertEntry_mem_key _ _ _
  · intro max_entries entries key content_hash token_count permanent now
      hlen hall hkey
    unfold cache_content
    rw [if_pos (by omega : entries.length ≥ max_entries)]
    rw [evict_lru_all_permanent _ _ hall]
    unfold insertEntry
    simp only [hkey, Bool.false_eq_true, if_false]
    simp [hlen]

/-- A permanent cache entry with a given access tick. -/
def permEntry (t : Nat) : CacheEntry :=
  { content_hash := 1, token_count := 10, created_at := 0,
    last_accessed := t, hit_count := 0,
    stability := ContentStabilityLevel.Permanent }

/-- A two-entry all-permanent table. -/
def permTable : List (String × CacheEntry) :=
  [("k1", permEntry 1), ("k2", permEntry 2)]

/-- Witness for `cache_content_exceeds_capacity_on_permanent` at a
concrete table. -/
theorem cache_content_exceeds_capacity_on_permanent_witness :
    ("k1", permEntry 1) ∈ evict_lru 2 permTable ∧
    permTable.length ≤ (evict_lru 2 permTable).length + 2 / 4 ∧
    (cache_content 2 permTable "k3" 7 10 false 5).any
      (fun p => p.1 == "k3") = true ∧
    (cache_content 2 permTable "k3" 7 10 false 5).length = 2 + 1 :=
  ⟨cache_content_exceeds_capacity_on_permanent.1 2 permTable "k1"
      (permEntry 1) (by decide) (by decide) rfl,
    cache_content_exceeds_capacity_on_permanent.2.1 2 permTable (by decide),
    cache_content_exceeds_capacity_on_permanent.2.2.1 2 permTable "k3" 7 10
      false 5,
    cache_content_exceeds_capacity_on_permanent.2.2.2 2 permTable "k3" 7 10
      false 5 rfl (by decide) (by decide)⟩
